import Mathlib

/-!
Verification of the trajectory-computation and comparative-rendering pipeline
of the butterfly-effect visualization (src/main.py).

The numeric code works on Python floats; here real-valued quantities are
embedded as rationals (`ℚ`), which is exact for the grid arithmetic,
bounds, ticks and frame bookkeeping the properties below are about.
Samples coming back from the external ODE solver are embedded with an
explicit value domain (`Sample`) that can also hold the non-finite floats
(nan, ±inf) a solver may produce, so that the (absence of a) finiteness
check in the repository code is expressible.
-/

set_option autoImplicit false

namespace Butterfly

/-- Value domain for solver output samples: a Python float is either a
finite value (embedded as a rational) or one of the non-finite floats. -/
inductive Sample where
  | val : ℚ → Sample
  | nan : Sample
  | posInf : Sample
  | negInf : Sample
deriving DecidableEq, Repr

/-- Finiteness predicate on solver samples (np.isfinite). -/
def Sample.isFinite : Sample → Bool
  | .val _ => true
  | _ => false

/-- Errors a call into the pipeline can surface.  `configurationError` and
`numericalInstabilityError` are the error kinds named by the specification;
`zeroDivisionError` is what numpy's arange actually raises on a zero step. -/
inductive PyError where
  | zeroDivisionError
  | configurationError
  | numericalInstabilityError
deriving DecidableEq, Repr

/-- Number of elements of np.arange(start, stop, step) for a nonzero step:
ceil((stop - start) / step), clamped at zero. -/
def arangeLen (start stop step : ℚ) : ℕ :=
  (⌈(stop - start) / step⌉).toNat

/-- np.arange(start, stop, step) for a nonzero step: the half-open grid
start, start + step, start + 2·step, … with `arangeLen` elements.
(src/main.py uses it at lines 34, 51, 56, 124, 129, 134, 203, 208, 213.) -/
def arange (start stop step : ℚ) : List ℚ :=
  (List.range (arangeLen start stop step)).map (fun k : ℕ => start + (k : ℚ) * step)

/-- np.arange including numpy's behavior on a zero step: numpy raises a
ZeroDivisionError while computing the length of the range. -/
def np_arange (start stop step : ℚ) : Except PyError (List ℚ) :=
  if step = 0 then .error .zeroDivisionError
  else .ok (arange start stop step)

/-- The Lorenz vector field, `lorenz_ode` (src/main.py lines 16-27):
given time `t` (unused, as in the source), state `(x, y, z)` and parameters,
returns the derivative triple. Pure: a plain function of its arguments. -/
def lorenz_ode (t : ℚ) (state : ℚ × ℚ × ℚ) (sigma rho beta : ℚ) :
    ℚ × ℚ × ℚ :=
  let x := state.1
  let y := state.2.1
  let z := state.2.2
  let dx_dt := sigma * (y - x)
  let dy_dt := x * (rho - z) - y
  let dz_dt := x * y - beta * z
  (dx_dt, dy_dt, dz_dt)

/-- Model of scipy's solve_ivp restricted to its observable contract at a
given evaluation grid: the solver determines an underlying solution
(`flow`, fixed by the ODE right-hand side, the parameters and the initial
state) and returns its three components sampled at exactly the requested
evaluation times, in order.  The value type `α` is abstract because the
solver produces floats, which may be non-finite (`Sample`). -/
def solve_ivp_at {α : Type} (flow : ℚ → α × α × α) (t_eval : List ℚ) :
    List α × List α × List α :=
  (t_eval.map (fun t => (flow t).1),
   t_eval.map (fun t => (flow t).2.1),
   t_eval.map (fun t => (flow t).2.2))

/-- `solve_lorenz_ode` (src/main.py lines 31-42): builds the timepoints with
np.arange(t0, tf, dt), calls the solver with t_eval = timepoints, and returns
the three component sequences unchanged — the source performs no validation
of the grid and no check on the returned samples.  `flow` stands for the
solver's underlying solution for (sigma, rho, beta, initial_state); these
arguments are kept for signature fidelity but act only through `flow`. -/
def solve_lorenz_ode {α : Type} (flow : ℚ → α × α × α)
    (sigma rho beta : ℚ) (initial_state : α × α × α) (t0 tf dt : ℚ) :
    Except PyError (List α × List α × List α) :=
  match np_arange t0 tf dt with
  | .error e => .error e
  | .ok timepoints => .ok (solve_ivp_at flow timepoints)

/-- The uniform sample-time grid of `solve_lorenz_ode` (src/main.py line 34). -/
def timepoints (t0 tf dt : ℚ) : List ℚ :=
  arange t0 tf dt

/-- A sampled trajectory: three coordinate sequences, as unpacked from
solution.y (src/main.py line 40) / solution[0], solution[1], solution[2]. -/
structure Traj where
  x : List ℚ
  y : List ℚ
  z : List ℚ
deriving DecidableEq, Repr

/-- Coordinate selector on a trajectory: 0 ↦ x, 1 ↦ y, 2 ↦ z
(mirroring solution[c] on the 3×N array). -/
def Traj.coord (s : Traj) : Fin 3 → List ℚ
  | 0 => s.x
  | 1 => s.y
  | 2 => s.z

/-- np .min() on a list of floats (errors on an empty array; the default
on [] is never relied upon by any theorem below). -/
def npMin : List ℚ → ℚ
  | [] => 0
  | a :: l => l.foldl min a

/-- np .max() on a list of floats (errors on an empty array; the default
on [] is never relied upon by any theorem below). -/
def npMax : List ℚ → ℚ
  | [] => 0
  | a :: l => l.foldl max a

/-- Python range(start, stop, step) for step ≥ 1: start, start+step, …
below stop; length = ⌈(stop − start)/step⌉ (0 when stop ≤ start). -/
def pyRange (start stop step : ℕ) : List ℕ :=
  (List.range ((stop - start + step - 1) / step)).map (fun j => start + j * step)

/-- The animation frames of one series: the frame loop of the source
(src/main.py lines 77-84, 155-163, 225-229) runs
for n_frame in range(1, len(xs), points_per_frame) and each frame carries
the prefix slice xs[: n_frame + 1]. -/
def frameSlices {α : Type} (xs : List α) (points_per_frame : ℕ) : List (List α) :=
  (pyRange 1 xs.length points_per_frame).map (fun n_frame => xs.take (n_frame + 1))

/-- Lengths of the frame prefixes for a series of n samples and the given
stride: the length of xs[: n_frame + 1] is min (n_frame + 1) n. -/
def frameLens (n stride : ℕ) : List ℕ :=
  (pyRange 1 n stride).map (fun n_frame => min (n_frame + 1) n)

/-- C truncation toward zero, the conversion .astype(int) applies to each
tick value (src/main.py lines 56, 124, 129, 134, 203, 208, 213). -/
def truncInt (q : ℚ) : ℤ :=
  if 0 ≤ q then ⌊q⌋ else ⌈q⌉

/-- np .astype(int) on a float array: elementwise truncation toward zero. -/
def astypeInt (l : List ℚ) : List ℤ :=
  l.map truncInt

/-- Tick builder of the phase-plane and 3-D views (src/main.py lines
124, 129, 134, 203, 208, 213): np.arange(vmin, vmax, spacing).astype(int). -/
def axis_ticks (vmin vmax spacing : ℚ) : List ℤ :=
  astypeInt (arange vmin vmax spacing)

/-- Padded axis minimum of the phase-plane and 3-D views (src/main.py lines
122, 127, 132, 201, 206, 211): joint minimum of the two runs minus 2. -/
def axis_value_min (l1 l2 : List ℚ) : ℚ :=
  min (npMin l1) (npMin l2) - 2

/-- Padded axis maximum of the phase-plane and 3-D views (src/main.py lines
123, 128, 133, 202, 207, 212): joint maximum of the two runs plus 2. -/
def axis_value_max (l1 l2 : List ℚ) : ℚ :=
  max (npMax l1) (npMax l2) + 2

/-- Shared ordinate minimum of the time view (src/main.py line 54):
min(solution_1.min(), solution_2.min()), where .min() on the 3×N solution
array is the minimum over all three coordinate rows jointly. -/
def ordinate_min (s1 s2 : Traj) : ℚ :=
  min (npMin (s1.x ++ s1.y ++ s1.z)) (npMin (s2.x ++ s2.y ++ s2.z))

/-- Shared ordinate maximum of the time view (src/main.py line 55). -/
def ordinate_max (s1 s2 : Traj) : ℚ :=
  max (npMax (s1.x ++ s1.y ++ s1.z)) (npMax (s2.x ++ s2.y ++ s2.z))

/-- Ordinate tick values of the time view (src/main.py line 56):
np.arange(ordinate_min, ordinate_max + 1, 6).astype(int). -/
def ordinate_ticks (s1 s2 : Traj) : List ℤ :=
  astypeInt (arange (ordinate_min s1 s2) (ordinate_max s1 s2 + 1) 6)

/-- Time-axis tick values of the time view (src/main.py lines 49-51):
np.arange(timepoints.min(), timepoints.max(), 5). -/
def t_ticks (tp : List ℚ) : List ℚ :=
  arange (npMin tp) (npMax tp) 5

/-- The y-axis ranges of the three time-view sub-panels, in panel order
(src/main.py lines 89, 91, 93: yaxis, yaxis2, yaxis3 all receive
range=[ordinate_min, ordinate_max]). -/
def time_view_yranges (s1 s2 : Traj) : List (ℚ × ℚ) :=
  [(ordinate_min s1 s2, ordinate_max s1 s2),
   (ordinate_min s1 s2, ordinate_max s1 s2),
   (ordinate_min s1 s2, ordinate_max s1 s2)]

/-- Coordinates shown by the three time-view sub-panels, in panel order
(src/main.py lines 64-73: panels t vs x, t vs y, t vs z). -/
def time_view_coords : List (Fin 3) :=
  [0, 1, 2]

/-- Series of the three time-view sub-panels: panel c carries both runs'
coordinate-c sequence against time (src/main.py lines 64-73). -/
def time_view_panels (s1 s2 : Traj) : List (List ℚ × List ℚ) :=
  [(s1.x, s2.x), (s1.y, s2.y), (s1.z, s2.z)]

/-- Coordinate pairings of the three phase-plane sub-panels, in panel order
(src/main.py lines 142-151: x-y, x-z, y-z). -/
def plot_xyz_pairs : List (Fin 3 × Fin 3) :=
  [(0, 1), (0, 2), (1, 2)]

/-- Series of the three phase-plane sub-panels: each panel carries both
runs' (abscissa, ordinate) coordinate pair (src/main.py lines 142-151). -/
def plot_xyz_panels (s1 s2 : Traj) :
    List ((List ℚ × List ℚ) × (List ℚ × List ℚ)) :=
  [((s1.x, s1.y), (s2.x, s2.y)),
   ((s1.x, s1.z), (s2.x, s2.z)),
   ((s1.y, s1.z), (s2.y, s2.z))]

/-! ### Helper lemmas about the embedded numpy / Python primitives -/

theorem arange_length (start stop step : ℚ) :
    (arange start stop step).length = arangeLen start stop step := by
  unfold arange
  rw [List.length_map, List.length_range]

theorem arange_getElem (start stop step : ℚ) (k : ℕ)
    (h : k < (arange start stop step).length) :
    (arange start stop step)[k] = start + k * step := by
  unfold arange at h ⊢
  rw [List.getElem_map, List.getElem_range]

theorem arange_mem (start stop step : ℚ) (t : ℚ) :
    t ∈ arange start stop step ↔
      ∃ k : ℕ, k < arangeLen start stop step ∧ t = start + k * step := by
  unfold arange
  constructor
  · intro ht
    obtain ⟨k, hk, hkt⟩ := List.mem_map.mp ht
    exact ⟨k, List.mem_range.mp hk, hkt.symm⟩
  · rintro ⟨k, hk, rfl⟩
    exact List.mem_map.mpr ⟨k, List.mem_range.mpr hk, rfl⟩

theorem arange_mem_ge {start stop step : ℚ} (hs : 0 ≤ step) {t : ℚ}
    (ht : t ∈ arange start stop step) : start ≤ t := by
  obtain ⟨k, _, rfl⟩ := (arange_mem start stop step t).mp ht
  have : (0 : ℚ) ≤ (k : ℚ) * step := mul_nonneg (Nat.cast_nonneg k) hs
  linarith

theorem arange_mem_lt {start stop step : ℚ} (hs : 0 < step) {t : ℚ}
    (ht : t ∈ arange start stop step) : t < stop := by
  obtain ⟨k, hk, rfl⟩ := (arange_mem start stop step t).mp ht
  have hkz : (k : ℤ) < ⌈(stop - start) / step⌉ := by
    unfold arangeLen at hk
    omega
  have hkq : (k : ℚ) < (stop - start) / step := by
    have := Int.lt_ceil.mp hkz
    exact_mod_cast this
  have hmul : (k : ℚ) * step < stop - start := (lt_div_iff₀ hs).mp hkq
  linarith

theorem arange_length_pos {start stop step : ℚ} (hs : 0 < step)
    (hlt : start < stop) : 0 < (arange start stop step).length := by
  rw [arange_length]
  unfold arangeLen
  have : (0 : ℤ) < ⌈(stop - start) / step⌉ :=
    Int.ceil_pos.mpr (div_pos (by linarith) hs)
  omega

theorem pyRange_length (start stop step : ℕ) :
    (pyRange start stop step).length = (stop - start + step - 1) / step := by
  simp [pyRange]

theorem pyRange_getElem (start stop step : ℕ) (k : ℕ)
    (h : k < (pyRange start stop step).length) :
    (pyRange start stop step)[k] = start + k * step := by
  simp [pyRange]

theorem foldl_min_le_init (l : List ℚ) (a : ℚ) : l.foldl min a ≤ a := by
  induction l generalizing a with
  | nil => exact le_refl a
  | cons b l ih =>
      calc (b :: l).foldl min a = l.foldl min (min a b) := rfl
        _ ≤ min a b := ih (min a b)
        _ ≤ a := min_le_left a b

theorem foldl_min_le_mem (l : List ℚ) (a : ℚ) {v : ℚ} (hv : v ∈ l) :
    l.foldl min a ≤ v := by
  induction l generalizing a with
  | nil => cases hv
  | cons b l ih =>
      rcases List.mem_cons.mp hv with rfl | hv'
      · calc (v :: l).foldl min a = l.foldl min (min a v) := rfl
          _ ≤ min a v := foldl_min_le_init l (min a v)
          _ ≤ v := min_le_right a v
      · exact ih (min a b) hv'

theorem foldl_min_mem (l : List ℚ) (a : ℚ) :
    l.foldl min a = a ∨ l.foldl min a ∈ l := by
  induction l generalizing a with
  | nil => exact Or.inl rfl
  | cons b l ih =>
      rcases ih (min a b) with h | h
      · rcases min_choice a b with hab | hab
        · exact Or.inl (by rw [show (b :: l).foldl min a = l.foldl min (min a b) from rfl, h, hab])
        · refine Or.inr (List.mem_cons.mpr (Or.inl ?_))
          rw [show (b :: l).foldl min a = l.foldl min (min a b) from rfl, h, hab]
      · exact Or.inr (List.mem_cons.mpr (Or.inr h))

theorem npMin_le {l : List ℚ} {v : ℚ} (hv : v ∈ l) : npMin l ≤ v := by
  cases l with
  | nil => cases hv
  | cons a l =>
      rcases List.mem_cons.mp hv with rfl | hv'
      · exact foldl_min_le_init l v
      · exact foldl_min_le_mem l a hv'

theorem npMin_mem {l : List ℚ} (hl : l ≠ []) : npMin l ∈ l := by
  cases l with
  | nil => exact absurd rfl hl
  | cons a l =>
      rcases foldl_min_mem l a with h | h
      · exact List.mem_cons.mpr (Or.inl (by simpa [npMin] using h))
      · exact List.mem_cons.mpr (Or.inr (by simpa [npMin] using h))

theorem foldl_max_ge_init (l : List ℚ) (a : ℚ) : a ≤ l.foldl max a := by
  induction l generalizing a with
  | nil => exact le_refl a
  | cons b l ih =>
      calc a ≤ max a b := le_max_left a b
        _ ≤ l.foldl max (max a b) := ih (max a b)
        _ = (b :: l).foldl max a := rfl

theorem foldl_max_ge_mem (l : List ℚ) (a : ℚ) {v : ℚ} (hv : v ∈ l) :
    v ≤ l.foldl max a := by
  induction l generalizing a with
  | nil => cases hv
  | cons b l ih =>
      rcases List.mem_cons.mp hv with rfl | hv'
      · calc v ≤ max a v := le_max_right a v
          _ ≤ l.foldl max (max a v) := foldl_max_ge_init l (max a v)
          _ = (v :: l).foldl max a := rfl
      · exact ih (max a b) hv'

theorem foldl_max_mem (l : List ℚ) (a : ℚ) :
    l.foldl max a = a ∨ l.foldl max a ∈ l := by
  induction l generalizing a with
  | nil => exact Or.inl rfl
  | cons b l ih =>
      rcases ih (max a b) with h | h
      · rcases max_choice a b with hab | hab
        · exact Or.inl (by rw [show (b :: l).foldl max a = l.foldl max (max a b) from rfl, h, hab])
        · refine Or.inr (List.mem_cons.mpr (Or.inl ?_))
          rw [show (b :: l).foldl max a = l.foldl max (max a b) from rfl, h, hab]
      · exact Or.inr (List.mem_cons.mpr (Or.inr h))

theorem npMax_ge {l : List ℚ} {v : ℚ} (hv : v ∈ l) : v ≤ npMax l := by
  cases l with
  | nil => cases hv
  | cons a l =>
      rcases List.mem_cons.mp hv with rfl | hv'
      · exact foldl_max_ge_init l v
      · exact foldl_max_ge_mem l a hv'

theorem npMax_mem {l : List ℚ} (hl : l ≠ []) : npMax l ∈ l := by
  cases l with
  | nil => exact absurd rfl hl
  | cons a l =>
      rcases foldl_max_mem l a with h | h
      · exact List.mem_cons.mpr (Or.inl (by simpa [npMax] using h))
      · exact List.mem_cons.mpr (Or.inr (by simpa [npMax] using h))

theorem coord_mem_concat {s : Traj} {c : Fin 3} {v : ℚ}
    (hv : v ∈ s.coord c) : v ∈ s.x ++ s.y ++ s.z := by
  fin_cases c <;> simp [Traj.coord] at hv <;> simp [hv]

theorem concat_mem_coord {s : Traj} {v : ℚ} (hv : v ∈ s.x ++ s.y ++ s.z) :
    ∃ c : Fin 3, v ∈ s.coord c := by
  rcases List.mem_append.mp hv with h | h
  · rcases List.mem_append.mp h with h' | h'
    · exact ⟨0, by simpa [Traj.coord] using h'⟩
    · exact ⟨1, by simpa [Traj.coord] using h'⟩
  · exact ⟨2, by simpa [Traj.coord] using h⟩

/-! ### Claim theorems -/

/-- Claim C8 (confirmed): for every state (x, y, z) and parameters
(sigma, rho, beta), the vector field evaluation returns exactly the triple
(sigma·(y − x), x·(rho − z) − y, x·y − beta·z).  The embedding is a plain
(hence pure, side-effect-free) function, as is the source function. -/
theorem lorenz_ode_eval (t x y z sigma rho beta : ℚ) :
    lorenz_ode t (x, y, z) sigma rho beta =
      (sigma * (y - x), x * (rho - z) - y, x * y - beta * z) :=
  rfl

/-- Claim C10 (confirmed): for every valid time grid (dt > 0, tf > t0) the
sample-time sequence used by solve_lorenz_ode is t0, t0 + dt, t0 + 2·dt, …;
every sample time is strictly below tf (tf itself is always excluded), and
the last sample time is t0 + (N − 1)·dt where N > 0 is the number of
samples. -/
theorem timepoints_grid (t0 tf dt : ℚ) (hdt : 0 < dt) (htf : t0 < tf) :
    0 < (timepoints t0 tf dt).length ∧
    (∀ (k : ℕ) (h : k < (timepoints t0 tf dt).length),
      (timepoints t0 tf dt)[k] = t0 + k * dt) ∧
    (∀ t ∈ timepoints t0 tf dt, t < tf) ∧
    (timepoints t0 tf dt).getLast? =
      some (t0 + (((timepoints t0 tf dt).length - 1 : ℕ) : ℚ) * dt) := by
  have hpos : 0 < (timepoints t0 tf dt).length := arange_length_pos hdt htf
  refine ⟨hpos, ?_, ?_, ?_⟩
  · intro k h
    exact arange_getElem t0 tf dt k h
  · intro t ht
    exact arange_mem_lt hdt ht
  · have hidx : (timepoints t0 tf dt).length - 1 < (timepoints t0 tf dt).length := by
      omega
    rw [List.getLast?_eq_getElem?, List.getElem?_eq_getElem hidx]
    exact congrArg some (arange_getElem t0 tf dt _ hidx)

/-- Witness for C10 at the concrete grid t0 = 0, tf = 1, dt = 1/2. -/
theorem timepoints_grid_witness :
    0 < (timepoints 0 1 (1/2)).length ∧
    (∀ (k : ℕ) (h : k < (timepoints 0 1 (1/2)).length),
      (timepoints 0 1 (1/2))[k] = 0 + k * (1/2)) ∧
    (∀ t ∈ timepoints 0 1 (1/2), t < 1) ∧
    (timepoints 0 1 (1/2)).getLast? =
      some (0 + (((timepoints 0 1 (1/2)).length - 1 : ℕ) : ℚ) * (1/2)) :=
  timepoints_grid 0 1 (1/2) (by norm_num) (by norm_num)

/-- Claim C5 counterexample: at t0 = 0, tf = 1, dt = 3/10 the returned
trajectory has 4 samples per coordinate, while floor((tf − t0)/dt) = 3 —
np.arange yields ceil((tf − t0)/dt) samples, not floor. -/
theorem sample_count_claim_cex :
    solve_lorenz_ode (fun _ : ℚ => ((0 : ℚ), (0 : ℚ), (0 : ℚ))) 10 28 (8/3)
        ((0 : ℚ), (0 : ℚ), (0 : ℚ)) 0 1 (3/10) =
      .ok ([0, 0, 0, 0], [0, 0, 0, 0], [0, 0, 0, 0]) ∧
    ([0, 0, 0, 0] : List ℚ).length = 4 ∧
    (⌊((1 : ℚ) - 0) / (3/10)⌋ = 3) ∧ (4 : ℕ) ≠ 3 := by
  have hceil : ⌈((1 : ℚ) - 0) / (3/10)⌉ = 4 := by
    rw [Int.ceil_eq_iff]
    norm_num
  have harange : arange 0 1 (3/10) = [0, 3/10, 3/5, 9/10] := by
    unfold arange arangeLen
    rw [hceil, show Int.toNat 4 = 4 from rfl]
    norm_num [List.range_succ]
  refine ⟨?_, rfl, by norm_num, by norm_num⟩
  unfold solve_lorenz_ode np_arange
  rw [if_neg (by norm_num : ¬ (3/10 : ℚ) = 0)]
  show Except.ok (solve_ivp_at _ (arange 0 1 (3/10))) = _
  rw [harange]
  rfl

/-- Claim C5 (amended): for dt > 0 (and tf > t0 as in the claim) the
trajectory returned by solve_lorenz_ode has exactly N = ceil((tf − t0)/dt)
samples in each of its three coordinate sequences — ceiling, not floor;
the two agree exactly when dt divides tf − t0, so the particular instance
t0 = 0, tf = 10, dt = 0.01 does have exactly 1000 samples. -/
theorem sample_count_spec {α : Type} (flow : ℚ → α × α × α)
    (sigma rho beta : ℚ) (s0 : α × α × α) (t0 tf dt : ℚ)
    (hdt : 0 < dt) (htf : t0 < tf) :
    solve_lorenz_ode flow sigma rho beta s0 t0 tf dt =
      .ok (solve_ivp_at flow (timepoints t0 tf dt)) ∧
    (solve_ivp_at flow (timepoints t0 tf dt)).1.length =
      (⌈(tf - t0) / dt⌉).toNat ∧
    (solve_ivp_at flow (timepoints t0 tf dt)).2.1.length =
      (⌈(tf - t0) / dt⌉).toNat ∧
    (solve_ivp_at flow (timepoints t0 tf dt)).2.2.length =
      (⌈(tf - t0) / dt⌉).toNat := by
  have hlen : (timepoints t0 tf dt).length = (⌈(tf - t0) / dt⌉).toNat := by
    rw [timepoints, arange_length, arangeLen]
  refine ⟨?_, ?_, ?_, ?_⟩
  · unfold solve_lorenz_ode np_arange
    rw [if_neg (ne_of_gt hdt)]
    rfl
  · simpa [solve_ivp_at] using hlen
  · simpa [solve_ivp_at] using hlen
  · simpa [solve_ivp_at] using hlen

/-- Witness for C5 at the grid of the spec's length invariant:
t0 = 0, tf = 10, dt = 1/100 gives exactly 1000 samples. -/
theorem sample_count_spec_witness :
    (solve_ivp_at (fun _ : ℚ => ((0 : ℚ), (0 : ℚ), (0 : ℚ)))
        (timepoints 0 10 (1/100))).1.length = (⌈((10 : ℚ) - 0) / (1/100)⌉).toNat ∧
    (⌈((10 : ℚ) - 0) / (1/100)⌉).toNat = 1000 := by
  refine ⟨(sample_count_spec (fun _ : ℚ => ((0 : ℚ), (0 : ℚ), (0 : ℚ))) 10 28 (8/3)
    ((0 : ℚ), (0 : ℚ), (0 : ℚ)) 0 10 (1/100) (by norm_num) (by norm_num)).2.1, ?_⟩
  have h : ⌈((10 : ℚ) - 0) / (1/100)⌉ = 1000 := by norm_num
  rw [h]
  rfl

/-- Claim C2 counterexample: at t0 = 0, tf = 0 (so tf ≤ t0) and dt = 1,
solve_lorenz_ode does not fail with a ConfigurationError — it returns an
(empty) trajectory to the caller. -/
theorem solve_config_claim_cex :
    ((0 : ℚ) ≤ (0 : ℚ)) ∧
    solve_lorenz_ode (fun _ : ℚ => ((0 : ℚ), (0 : ℚ), (0 : ℚ))) 10 28 (8/3)
        ((0 : ℚ), (0 : ℚ), (0 : ℚ)) 0 0 1 =
      .ok ([], [], []) ∧
    (Except.ok (([], [], []) : List ℚ × List ℚ × List ℚ) ≠
      (.error .configurationError : Except PyError (List ℚ × List ℚ × List ℚ))) := by
  have hceil : ⌈((0 : ℚ) - 0) / 1⌉ = 0 := by norm_num
  have harange : arange 0 0 1 = [] := by
    unfold arange arangeLen
    rw [hceil]
    rfl
  refine ⟨le_refl 0, ?_, by simp⟩
  unfold solve_lorenz_ode np_arange
  rw [if_neg (by norm_num : ¬ (1 : ℚ) = 0)]
  show Except.ok (solve_ivp_at _ (arange 0 0 1)) = _
  rw [harange]
  rfl

/-- Claim C2 (amended): solve_lorenz_ode performs no time-grid validation
and never fails with a ConfigurationError; when tf ≤ t0 and dt > 0 it
returns an empty trajectory (zero samples per coordinate) to the caller
instead of failing.  (Only dt = 0 makes the call fail at all, and that
failure is numpy's ZeroDivisionError from np.arange.) -/
theorem solve_no_config_error {α : Type} (flow : ℚ → α × α × α)
    (sigma rho beta : ℚ) (s0 : α × α × α) (t0 tf dt : ℚ) :
    solve_lorenz_ode flow sigma rho beta s0 t0 tf dt ≠
      .error .configurationError ∧
    (tf ≤ t0 → 0 < dt →
      solve_lorenz_ode flow sigma rho beta s0 t0 tf dt = .ok ([], [], [])) := by
  constructor
  · unfold solve_lorenz_ode np_arange
    by_cases h : dt = 0
    · rw [if_pos h]
      simp
    · rw [if_neg h]
      simp
  · intro hle hdt
    have hlen : arangeLen t0 tf dt = 0 := by
      have h1 : (tf - t0) / dt ≤ 0 := by
        rw [div_nonpos_iff]
        right
        exact ⟨by linarith, hdt.le⟩
      have h2 : ⌈(tf - t0) / dt⌉ ≤ 0 := Int.ceil_le.mpr (by exact_mod_cast h1)
      unfold arangeLen
      omega
    unfold solve_lorenz_ode np_arange
    rw [if_neg (ne_of_gt hdt)]
    unfold solve_ivp_at arange
    rw [hlen]
    rfl

/-- Witness for C2 at the degenerate grid t0 = tf = 5, dt = 2. -/
theorem solve_no_config_error_witness :
    solve_lorenz_ode (fun _ : ℚ => ((1 : ℚ), (1 : ℚ), (1 : ℚ))) 7 27 2
        ((1 : ℚ), (1 : ℚ), (1 : ℚ)) 5 5 2 = .ok ([], [], []) :=
  (solve_no_config_error (fun _ : ℚ => ((1 : ℚ), (1 : ℚ), (1 : ℚ))) 7 27 2
    ((1 : ℚ), (1 : ℚ), (1 : ℚ)) 5 5 2).2 (le_refl 5) (by norm_num)

/-- Claim C3 counterexample: when the solver produces a non-finite sample
(here a constant-nan flow over one sample time), solve_lorenz_ode does not
fail with a NumericalInstabilityError and does not discard the trajectory —
it returns the non-finite samples to the caller. -/
theorem solve_nonfinite_claim_cex :
    solve_lorenz_ode (fun _ : ℚ => (Sample.nan, Sample.nan, Sample.nan)) 10 28 (8/3)
        (Sample.val 0, Sample.val 1, Sample.val 0) 0 1 1 =
      .ok ([Sample.nan], [Sample.nan], [Sample.nan]) ∧
    Sample.nan ∈ [Sample.nan] ∧
    Sample.isFinite Sample.nan = false ∧
    ((.ok ([Sample.nan], [Sample.nan], [Sample.nan]) :
        Except PyError (List Sample × List Sample × List Sample)) ≠
      .error .numericalInstabilityError) := by
  have hceil : ⌈((1 : ℚ) - 0) / 1⌉ = 1 := by norm_num
  have harange : arange 0 1 1 = [0] := by
    unfold arange arangeLen
    rw [hceil, show Int.toNat 1 = 1 from rfl]
    norm_num [List.range_succ]
  refine ⟨?_, List.mem_singleton.mpr rfl, rfl, by simp⟩
  unfold solve_lorenz_ode np_arange
  rw [if_neg (by norm_num : ¬ (1 : ℚ) = 0)]
  show Except.ok (solve_ivp_at _ (arange 0 1 1)) = _
  rw [harange]
  rfl

/-- Claim C3 (amended): solve_lorenz_ode applies no finiteness check and
never fails with a NumericalInstabilityError; whenever it returns a
trajectory, that trajectory is exactly the solver's output at the sample
grid, unchanged — finite or not. -/
theorem solve_no_finiteness_check {α : Type} (flow : ℚ → α × α × α)
    (sigma rho beta : ℚ) (s0 : α × α × α) (t0 tf dt : ℚ) :
    solve_lorenz_ode flow sigma rho beta s0 t0 tf dt ≠
      .error .numericalInstabilityError ∧
    (∀ tr, solve_lorenz_ode flow sigma rho beta s0 t0 tf dt = .ok tr →
      tr = solve_ivp_at flow (timepoints t0 tf dt) ∧
      (∀ v, v ∈ tr.1 ↔ ∃ t ∈ timepoints t0 tf dt, (flow t).1 = v)) := by
  constructor
  · unfold solve_lorenz_ode np_arange
    by_cases h : dt = 0
    · rw [if_pos h]
      simp
    · rw [if_neg h]
      simp
  · intro tr htr
    unfold solve_lorenz_ode np_arange at htr
    by_cases h : dt = 0
    · rw [if_pos h] at htr
      cases htr
    · rw [if_neg h] at htr
      have htr' : tr = solve_ivp_at flow (timepoints t0 tf dt) := by
        cases htr
        rfl
      refine ⟨htr', ?_⟩
      intro v
      rw [htr']
      unfold solve_ivp_at
      exact List.mem_map

/-- Witness for C3: the returned trajectory at a one-point grid with a
constant flow is exactly the solver's (unchecked) output. -/
theorem solve_no_finiteness_check_witness :
    ([Sample.val 3], [Sample.val 4], [Sample.val 5]) =
      solve_ivp_at (fun _ : ℚ => (Sample.val 3, Sample.val 4, Sample.val 5))
        (timepoints 0 1 2) :=
  ((solve_no_finiteness_check (fun _ : ℚ => (Sample.val 3, Sample.val 4, Sample.val 5))
      10 28 (8/3) (Sample.val 0, Sample.val 0, Sample.val 0) 0 1 2).2
    ([Sample.val 3], [Sample.val 4], [Sample.val 5]) (by
      have hceil : ⌈((1 : ℚ) - 0) / 2⌉ = 1 := by
        rw [Int.ceil_eq_iff]
        norm_num
      have harange : arange 0 1 2 = [0] := by
        unfold arange arangeLen
        rw [hceil, show Int.toNat 1 = 1 from rfl]
        norm_num [List.range_succ]
      unfold solve_lorenz_ode np_arange
      rw [if_neg (by norm_num : ¬ (2 : ℚ) = 0)]
      show Except.ok (solve_ivp_at _ (arange 0 1 2)) = _
      rw [harange]
      rfl)).1

/-- Claim C6 (confirmed): for the phase-plane / 3-D axis bounds of two
trajectories and a coordinate, every sampled value v of that coordinate
across both trajectories jointly satisfies min ≤ v ≤ max, and — the
additive padding 2 being positive — v in fact lies strictly inside
[min, max]. -/
theorem bounds_contain (s1 s2 : Traj) (c : Fin 3) (v : ℚ)
    (hv : v ∈ s1.coord c ∨ v ∈ s2.coord c) :
    axis_value_min (s1.coord c) (s2.coord c) ≤ v ∧
    v ≤ axis_value_max (s1.coord c) (s2.coord c) ∧
    axis_value_min (s1.coord c) (s2.coord c) < v ∧
    v < axis_value_max (s1.coord c) (s2.coord c) := by
  have h1 : min (npMin (s1.coord c)) (npMin (s2.coord c)) ≤ v := by
    rcases hv with h | h
    · exact le_trans (min_le_left _ _) (npMin_le h)
    · exact le_trans (min_le_right _ _) (npMin_le h)
  have h2 : v ≤ max (npMax (s1.coord c)) (npMax (s2.coord c)) := by
    rcases hv with h | h
    · exact le_trans (npMax_ge h) (le_max_left _ _)
    · exact le_trans (npMax_ge h) (le_max_right _ _)
  unfold axis_value_min axis_value_max
  refine ⟨by linarith, by linarith, by linarith, by linarith⟩

/-- Witness for C6: a concrete sample of the x-coordinate of two concrete
trajectories lies (strictly) within the padded joint bounds. -/
theorem bounds_contain_witness :
    axis_value_min ((Traj.mk [1, 5] [2] [3]).coord 0) ((Traj.mk [4] [0] [6]).coord 0) ≤ 5 ∧
    (5 : ℚ) ≤ axis_value_max ((Traj.mk [1, 5] [2] [3]).coord 0) ((Traj.mk [4] [0] [6]).coord 0) ∧
    axis_value_min ((Traj.mk [1, 5] [2] [3]).coord 0) ((Traj.mk [4] [0] [6]).coord 0) < 5 ∧
    (5 : ℚ) < axis_value_max ((Traj.mk [1, 5] [2] [3]).coord 0) ((Traj.mk [4] [0] [6]).coord 0) :=
  bounds_contain (Traj.mk [1, 5] [2] [3]) (Traj.mk [4] [0] [6]) 0 5
    (Or.inl (by simp [Traj.coord]))

/-- Claim C7 (confirmed): the three time-view sub-panels all share one
y-axis range, equal to (ordinate_min, ordinate_max), and this shared bound
is the global min/max taken jointly over all three coordinates of both
trajectories: it bounds every sample of every coordinate of either
trajectory and (for nonempty runs) is itself attained by one of the six
coordinate sequences; the x-axis tick values are built from the time grid
and stay within it. -/
theorem time_view_shared_bounds (s1 s2 : Traj) (tp : List ℚ) :
    (∀ r ∈ time_view_yranges s1 s2, r = (ordinate_min s1 s2, ordinate_max s1 s2)) ∧
    (∀ (c : Fin 3) (v : ℚ), v ∈ s1.coord c ∨ v ∈ s2.coord c →
      ordinate_min s1 s2 ≤ v ∧ v ≤ ordinate_max s1 s2) ∧
    (s1.x ≠ [] → s2.x ≠ [] →
      ((∃ c : Fin 3, ordinate_min s1 s2 ∈ s1.coord c) ∨
        (∃ c : Fin 3, ordinate_min s1 s2 ∈ s2.coord c)) ∧
      ((∃ c : Fin 3, ordinate_max s1 s2 ∈ s1.coord c) ∨
        (∃ c : Fin 3, ordinate_max s1 s2 ∈ s2.coord c))) ∧
    (∀ t ∈ t_ticks tp, npMin tp ≤ t ∧ t < npMax tp) := by
  refine ⟨?_, ?_, ?_, ?_⟩
  · intro r hr
    rcases List.mem_cons.mp hr with rfl | hr'
    · rfl
    rcases List.mem_cons.mp hr' with rfl | hr''
    · rfl
    rcases List.mem_cons.mp hr'' with rfl | hr'''
    · rfl
    cases hr'''
  · intro c v hv
    constructor
    · rcases hv with h | h
      · exact le_trans (min_le_left _ _) (npMin_le (coord_mem_concat h))
      · exact le_trans (min_le_right _ _) (npMin_le (coord_mem_concat h))
    · rcases hv with h | h
      · exact le_trans (npMax_ge (coord_mem_concat h)) (le_max_left _ _)
      · exact le_trans (npMax_ge (coord_mem_concat h)) (le_max_right _ _)
  · intro hx1 hx2
    have hc1 : s1.x ++ s1.y ++ s1.z ≠ [] := by
      intro h
      rcases List.append_eq_nil.mp h with ⟨h1, _⟩
      rcases List.append_eq_nil.mp h1 with ⟨h2, _⟩
      exact hx1 h2
    have hc2 : s2.x ++ s2.y ++ s2.z ≠ [] := by
      intro h
      rcases List.append_eq_nil.mp h with ⟨h1, _⟩
      rcases List.append_eq_nil.mp h1 with ⟨h2, _⟩
      exact hx2 h2
    constructor
    · rcases min_choice (npMin (s1.x ++ s1.y ++ s1.z)) (npMin (s2.x ++ s2.y ++ s2.z)) with h | h
      · exact Or.inl (concat_mem_coord (by rw [ordinate_min, h]; exact npMin_mem hc1))
      · exact Or.inr (concat_mem_coord (by rw [ordinate_min, h]; exact npMin_mem hc2))
    · rcases max_choice (npMax (s1.x ++ s1.y ++ s1.z)) (npMax (s2.x ++ s2.y ++ s2.z)) with h | h
      · exact Or.inl (concat_mem_coord (by rw [ordinate_max, h]; exact npMax_mem hc1))
      · exact Or.inr (concat_mem_coord (by rw [ordinate_max, h]; exact npMax_mem hc2))
  · intro t ht
    exact ⟨arange_mem_ge (by norm_num) ht, arange_mem_lt (by norm_num) ht⟩

/-- Witness for C7: a concrete sample of the y-coordinate of the second
trajectory is bounded by the shared time-view ordinate bounds. -/
theorem time_view_shared_bounds_witness :
    ordinate_min (Traj.mk [1] [2] [3]) (Traj.mk [0] [7] [1]) ≤ 7 ∧
    (7 : ℚ) ≤ ordinate_max (Traj.mk [1] [2] [3]) (Traj.mk [0] [7] [1]) :=
  (time_view_shared_bounds (Traj.mk [1] [2] [3]) (Traj.mk [0] [7] [1]) []).2.1 1 7
    (Or.inr (by simp [Traj.coord]))

/-- Claim C9 (confirmed): composing the views yields exactly 3 phase-plane
panels whose coordinate pairings cover the 3 unordered pairs of distinct
coordinates exactly once each, and exactly 3 time-series panels covering
the coordinates x, y, z exactly once each; the panel series are precisely
the selected coordinate sequences of the two trajectories. -/
theorem view_symmetry (s1 s2 : Traj) :
    (plot_xyz_panels s1 s2).length = 3 ∧
    plot_xyz_panels s1 s2 =
      plot_xyz_pairs.map (fun p =>
        ((s1.coord p.1, s1.coord p.2), (s2.coord p.1, s2.coord p.2))) ∧
    (plot_xyz_pairs.map (fun p => ({p.1, p.2} : Finset (Fin 3)))) =
      [{0, 1}, {0, 2}, {1, 2}] ∧
    (plot_xyz_pairs.map (fun p => ({p.1, p.2} : Finset (Fin 3)))).Nodup ∧
    ({({0, 1} : Finset (Fin 3)), {0, 2}, {1, 2}} : Finset (Finset (Fin 3))) =
      Finset.univ.filter (fun S : Finset (Fin 3) => S.card = 2) ∧
    (time_view_panels s1 s2).length = 3 ∧
    time_view_panels s1 s2 =
      time_view_coords.map (fun c => (s1.coord c, s2.coord c)) ∧
    time_view_coords.Nodup ∧
    (∀ c : Fin 3, c ∈ time_view_coords) := by
  refine ⟨rfl, rfl, by decide, by decide, by decide, rfl, rfl, by decide, by decide⟩

/-- Claim C1 counterexample: for N = 1000 samples and stride = 40 the frame
sequence has 25 frames, not ceil(999/40) + 1 = 26; its first frame's prefix
length is 2, not min(1 + 0·40, 1000) = 1; and its final frame's prefix
length is 962, not the full length 1000. -/
theorem frames_claim_cex :
    (frameLens 1000 40).length = 25 ∧ (25 : ℕ) ≠ (999 + 40 - 1) / 40 + 1 ∧
    (frameLens 1000 40).head? = some 2 ∧ (2 : ℕ) ≠ min (1 + 0 * 40) 1000 ∧
    (frameLens 1000 40).getLast? = some 962 ∧ (962 : ℕ) ≠ 1000 := by
  refine ⟨by decide, by decide, by decide, by decide, by decide, by decide⟩

/-- Claim C1 (amended): for equal-length trajectories of length N ≥ 2 and
stride ≥ 1 the frame sequence is finite and ordered with strictly increasing
prefix lengths, but frame k's prefix length equals 2 + k·stride (the source
slices [: n_frame + 1] with n_frame = 1 + k·stride, one more element than
the claim's min(1 + k·stride, N)); the number of frames is
(N − 2)/stride + 1 = ceil((N − 1)/stride), and the final frame's prefix
length is 2 + stride·((N − 2)/stride), which equals N only when stride
divides N − 2 — for N = 1000 and stride = 40 there are 25 frames (not
ceil(999/40) + 1 = 26) and the final prefix length is 962, not 1000. -/
theorem frames_spec (N stride : ℕ) (hN : 2 ≤ N) (hs : 1 ≤ stride) :
    (frameLens N stride).length = (N - 2) / stride + 1 ∧
    (∀ (k : ℕ) (h : k < (frameLens N stride).length),
      (frameLens N stride)[k] = 2 + k * stride) ∧
    (frameLens N stride).Pairwise (· < ·) ∧
    (frameLens N stride).getLast? = some (2 + ((N - 2) / stride) * stride) := by
  have hlen : (frameLens N stride).length = (N - 2) / stride + 1 := by
    unfold frameLens
    rw [List.length_map, pyRange_length,
      show N - 1 + stride - 1 = (N - 2) + stride by omega,
      Nat.add_div_right _ (by omega : 0 < stride)]
  have hget : ∀ (k : ℕ) (h : k < (frameLens N stride).length),
      (frameLens N stride)[k] = 2 + k * stride := by
    intro k h
    have hk : k ≤ (N - 2) / stride := by
      rw [hlen] at h
      omega
    have hks : k * stride ≤ N - 2 :=
      le_trans (Nat.mul_le_mul_right stride hk) (Nat.div_mul_le_self _ _)
    have hlt : k < (pyRange 1 N stride).length := by
      unfold frameLens at h
      rw [List.length_map] at h
      exact h
    unfold frameLens
    rw [List.getElem_map, pyRange_getElem 1 N stride k hlt]
    omega
  refine ⟨hlen, hget, ?_, ?_⟩
  · rw [List.pairwise_iff_getElem]
    intro i j hi hj hij
    rw [hget i hi, hget j hj]
    have : i * stride < j * stride :=
      mul_lt_mul_of_pos_right hij (by omega : 0 < stride)
    omega
  · have hidx : (frameLens N stride).length - 1 < (frameLens N stride).length := by
      rw [hlen]
      exact Nat.lt_succ_self _
    have hdx : (frameLens N stride).length - 1 = (N - 2) / stride := by
      rw [hlen]
      exact Nat.add_sub_cancel _ _
    rw [List.getLast?_eq_getElem?, List.getElem?_eq_getElem hidx, hget _ hidx, hdx]

/-- Witness for C1 at N = 10, stride = 4: 3 frames with prefix lengths
2, 6, 10. -/
theorem frames_spec_witness :
    (frameLens 10 4).length = (10 - 2) / 4 + 1 ∧
    (frameLens 10 4).getLast? = some (2 + ((10 - 2) / 4) * 4) :=
  ⟨(frames_spec 10 4 (by norm_num) (by norm_num)).1,
   (frames_spec 10 4 (by norm_num) (by norm_num)).2.2.2⟩

/-- Claim C4 counterexample: with padded minimum m = −1/2 (arising, e.g.,
from coordinate samples [3/2] and [2] padded by −2), padded maximum 10 and
spacing 5, the emitted ticks are [0, 4, 9]: the first tick is 0 ≠ −1/2 and
two consecutive ticks differ by 4 ≠ 5 — the .astype(int) truncation breaks
the claimed exact start and exact spacing. -/
theorem ticks_claim_cex :
    axis_value_min [3/2] [2] = (-1/2 : ℚ) ∧
    axis_ticks (-1/2) 10 5 = [0, 4, 9] ∧
    ((0 : ℚ) ≠ (-1/2 : ℚ)) ∧ ((4 : ℤ) - 0 ≠ 5) := by
  refine ⟨by norm_num [axis_value_min, npMin], ?_, by norm_num, by decide⟩
  have hceil : ⌈((10 : ℚ) - (-1/2)) / 5⌉ = 3 := by
    rw [Int.ceil_eq_iff]
    norm_num
  have harange : arange (-1/2) 10 5 = [-1/2, 9/2, 19/2] := by
    unfold arange arangeLen
    rw [hceil, show Int.toNat 3 = 3 from rfl]
    norm_num [List.range_succ]
  unfold axis_ticks astypeInt
  rw [harange]
  have h0 : truncInt (-1/2) = 0 := by
    unfold truncInt
    rw [if_neg (by norm_num)]
    norm_num [Int.ceil_eq_iff]
  have h4 : truncInt (9/2) = 4 := by
    unfold truncInt
    rw [if_pos (by norm_num)]
    norm_num [Int.floor_eq_iff]
  have h9 : truncInt (19/2) = 9 := by
    unfold truncInt
    rw [if_pos (by norm_num)]
    norm_num [Int.floor_eq_iff]
  simp [h0, h4, h9]

/-- Claim C4 (amended): the underlying tick grid arange(m, M, s) does start
exactly at m, steps by exactly s and never reaches M; but the ticks the
views emit are that grid truncated toward zero by .astype(int), so an
emitted tick can differ from its exact grid position (and from an exact
step) by less than one; the time view's ordinate grid runs over
[m, M + 1) and so can exceed M, while staying below M + 1. -/
theorem ticks_spec (m M s : ℚ) (hs : 0 < s) :
    axis_ticks m M s = (arange m M s).map truncInt ∧
    (∀ (k : ℕ) (h : k < (arange m M s).length), (arange m M s)[k] = m + k * s) ∧
    (∀ t ∈ arange m M s, m ≤ t ∧ t < M) ∧
    (∀ h0 : 0 < (arange m M s).length, (arange m M s).get ⟨0, h0⟩ = m) ∧
    (∀ t ∈ arange m (M + 1) 6, m ≤ t ∧ t < M + 1) := by
  refine ⟨rfl, arange_getElem m M s, ?_, ?_, ?_⟩
  · intro t ht
    exact ⟨arange_mem_ge hs.le ht, arange_mem_lt hs ht⟩
  · intro h0
    rw [List.get_eq_getElem, arange_getElem m M s 0 h0]
    norm_num
  · intro t ht
    exact ⟨arange_mem_ge (by norm_num) ht, arange_mem_lt (by norm_num) ht⟩

/-- Witness for C4: at m = 0, M = 7, s = 3 the emitted ticks are the
truncations of the exact grid. -/
theorem ticks_spec_witness :
    axis_ticks 0 7 3 = (arange 0 7 3).map truncInt :=
  (ticks_spec 0 7 3 (by norm_num)).1

end Butterfly
